import Mathlib

/-!
Shallow embedding of the matrix-multiplication FLOPS analyzer
(`components/matrix-analyzer.tsx` of the repository).

JavaScript numbers are modelled as rationals (`ℚ`), and the total
division of JavaScript (which yields Infinity/NaN at a zero denominator) is modelled by
the total division of Lean on `ℚ` (which yields the junk value 0 there); every
theorem about a division carries the hypothesis that makes the denominator
nonzero, so the two semantics agree on the statements proved below.

Nondeterministic inputs of the code are oracle parameters:
  * `generateRandomMatrix` (Math.random) becomes matrix-valued oracles;
  * `performance.now()` differences become an `elapsed` oracle giving the
    measured milliseconds of each trial;
  * `Math.sqrt` (used only for the standard-deviation field, which no
    theorem below inspects) becomes a function parameter `sqrtFn`.

Matrices are total functions `Nat → Nat → ℚ`; the code only ever reads
indices below `n`.
-/

namespace MatrixAnalyzer

/-- One measurement record of the sweep (interface `DataPoint` of the source). -/
structure DataPoint where
  n : Nat
  time : ℚ
  operations : Nat
  flops : ℚ
  gflops : ℚ
  teraflops : ℚ
  teraflopsSeconds : ℚ
  theoretical : ℚ
  standardDeviation : ℚ
deriving Inhabited, DecidableEq

/-- The record returned by `fitCubicCurve` (fields `a`, `b`, `c`, `rSquared`). -/
structure FitCoefficients where
  a : ℚ
  b : ℚ
  c : ℚ
  rSquared : ℚ
deriving Inhabited, DecidableEq

/-- The record published by a completed run (interface `AnalysisResult`). -/
structure AnalysisResult where
  dataPoints : List DataPoint
  complexity : String
  rSquared : ℚ
  coefficients : FitCoefficients
  theoreticalCoeff : ℚ
  avgGFLOPS : ℚ
  maxTFLOPS : ℚ
  totalTeraflopsSeconds : ℚ
deriving Inhabited

/-- `multiplyMatricesWithFLOPS` (source lines 49–76): the naive triple loop.
`result[i][j]` starts at 0 and accumulates `a[i][k] * b[k][j]` over
`k = 0, …, n-1`; the counter `flops` is incremented by 2 at every innermost
iteration. -/
def multiplyMatricesWithFLOPS (a b : Nat → Nat → ℚ) (n : Nat) :
    List (List ℚ) × Nat :=
  let result : List (List ℚ) :=
    (List.range n).map fun i =>
      (List.range n).map fun j =>
        (List.range n).foldl (fun acc k => acc + a i k * b k j) 0
  let flops : Nat :=
    (List.range n).foldl (fun f _ =>
      (List.range n).foldl (fun f _ =>
        (List.range n).foldl (fun f _ => f + 2) f) f) 0
  (result, flops)

/-- Reading entry `(i, j)` of a matrix stored as a list of rows (`result[i][j]`
in the code); out-of-range reads (which the code never performs) default
to an empty row / 0. -/
def getEntry (m : List (List ℚ)) (i j : Nat) : ℚ :=
  (m.getD i []).getD j 0

/-- The per-trial data recorded by one iteration of the measurement loop of
`measureFLOPS` (source lines 106–124). `elapsed` is the oracle-provided
value of `endTime - startTime` in milliseconds. -/
structure TrialData where
  elapsed : ℚ
  flops : Nat
  currentFLOPS : ℚ
  teraflopsSeconds : ℚ
deriving DecidableEq

/-- One iteration of the measurement loop of `measureFLOPS` (source lines
106–124): multiply the (oracle-provided random) matrices, then derive
`timeInSeconds`, `currentFLOPS`, `teraflopsPerSecond` and
`teraflopsSeconds` exactly as the source does. -/
def runTrial (n : Nat) (matrixA matrixB : Nat → Nat → ℚ) (elapsedMs : ℚ) :
    TrialData :=
  let flops := (multiplyMatricesWithFLOPS matrixA matrixB n).2
  let timeInSeconds := elapsedMs / 1000
  let currentFLOPS := (flops : ℚ) / timeInSeconds
  let teraflopsPerSecond := currentFLOPS / 1000000000000
  let teraflopsSeconds := timeInSeconds * teraflopsPerSecond
  { elapsed := elapsedMs, flops := flops, currentFLOPS := currentFLOPS,
    teraflopsSeconds := teraflopsSeconds }

/-- The record returned by `measureFLOPS`. -/
structure MeasureResult where
  avgTime : ℚ
  stdDev : ℚ
  flops : Nat
  avgFLOPS : ℚ
  gflops : ℚ
  teraflops : ℚ
  teraflopsSeconds : ℚ
deriving DecidableEq

/-- `measureFLOPS` (source lines 89–137): run `numMeasurements` trials
(matrices and elapsed milliseconds supplied by oracles `mats` and
`elapsed`), collect the per-trial arrays `times`, `flopsResults`,
`teraflopsSecondsResults`, overwrite `totalFLOPS` with the count of each trial,
then aggregate: mean time, population standard deviation (via `sqrtFn`,
modelling `Math.sqrt`), mean FLOPS-per-second and its GFLOPS/TFLOPS
rescalings, and mean teraflops-seconds. -/
def measureFLOPS (n numMeasurements : Nat)
    (mats : Nat → (Nat → Nat → ℚ) × (Nat → Nat → ℚ))
    (elapsed : Nat → ℚ) (sqrtFn : ℚ → ℚ) : MeasureResult :=
  let trials := (List.range numMeasurements).map fun i =>
    runTrial n (mats i).1 (mats i).2 (elapsed i)
  let times := trials.map (·.elapsed)
  let flopsResults := trials.map (·.currentFLOPS)
  let teraflopsSecondsResults := trials.map (·.teraflopsSeconds)
  let totalFLOPS := trials.foldl (fun _ t => t.flops) 0
  let avgTime := times.sum / (times.length : ℚ)
  let variance := (times.map (fun time => (time - avgTime) ^ 2)).sum /
    (times.length : ℚ)
  let stdDev := sqrtFn variance
  let avgFLOPS := flopsResults.sum / (flopsResults.length : ℚ)
  let gflops := avgFLOPS / 1000000000
  let teraflops := avgFLOPS / 1000000000000
  let teraflopsSeconds := teraflopsSecondsResults.sum /
    (teraflopsSecondsResults.length : ℚ)
  { avgTime := avgTime, stdDev := stdDev, flops := totalFLOPS,
    avgFLOPS := avgFLOPS, gflops := gflops, teraflops := teraflops,
    teraflopsSeconds := teraflopsSeconds }

/-- `Σ (n_i)³` over the data points: the local `sumN3` of `fitCubicCurve`. -/
def fitSumN3 (l : List DataPoint) : ℚ :=
  (l.map fun p => ((p.n : ℚ)) ^ 3).sum

/-- `Σ ((n_i)³)²` over the data points: the local `sumN6` of `fitCubicCurve`. -/
def fitSumN6 (l : List DataPoint) : ℚ :=
  (l.map fun p => (((p.n : ℚ)) ^ 3) ^ 2).sum

/-- `Σ (t_i · (n_i)³)` over the data points: the local `sumTN3` of
`fitCubicCurve`. -/
def fitSumTN3 (l : List DataPoint) : ℚ :=
  (l.map fun p => p.time * ((p.n : ℚ)) ^ 3).sum

/-- `Σ t_i` over the data points: the local `sumT` of `fitCubicCurve`. -/
def fitSumT (l : List DataPoint) : ℚ :=
  (l.map fun p => p.time).sum

/-- The normal-equation denominator `n * sumN6 - sumN3 * sumN3` of
`fitCubicCurve` (source line 157). -/
def fitDenominator (l : List DataPoint) : ℚ :=
  (l.length : ℚ) * fitSumN6 l - fitSumN3 l * fitSumN3 l

/-- The cubic coefficient before the absolute value is applied (source line
158): `denominator !== 0 ? (n*sumTN3 - sumT*sumN3) / denominator : 0`. -/
def fitA (l : List DataPoint) : ℚ :=
  if fitDenominator l = 0 then 0
  else ((l.length : ℚ) * fitSumTN3 l - fitSumT l * fitSumN3 l) /
    fitDenominator l

/-- The intercept before the absolute value is applied (source lines
160–162): `c = avgTime - a * avgN3`. -/
def fitC (l : List DataPoint) : ℚ :=
  fitSumT l / (l.length : ℚ) - fitA l * (fitSumN3 l / (l.length : ℚ))

/-- The residual sum of squares of `fitCubicCurve` (source lines 170–173),
using the predicted value `a·n³ + b·n² + c` with `b = 0`. -/
def fitSsRes (l : List DataPoint) : ℚ :=
  (l.map fun p =>
    (p.time - (fitA l * ((p.n : ℚ)) ^ 3 + 0 * ((p.n : ℚ)) ^ 2 + fitC l)) ^ 2).sum

/-- The total sum of squares of `fitCubicCurve` (source lines 168–173),
about the mean time `avgY = Σ t_i / n`. -/
def fitSsTot (l : List DataPoint) : ℚ :=
  (l.map fun p => (p.time - fitSumT l / (l.length : ℚ)) ^ 2).sum

/-- `rSquared` of `fitCubicCurve` (source line 176):
`ssTot > 0 ? Math.max(0, 1 - ssRes / ssTot) : 0`. -/
def fitRSquared (l : List DataPoint) : ℚ :=
  if 0 < fitSsTot l then max 0 (1 - fitSsRes l / fitSsTot l) else 0

/-- `fitCubicCurve` (source lines 139–179): fewer than 3 points yields the
zero record; otherwise the single-regressor least-squares fit of `time`
against `n³`, with `a`, `b`, `c` passed through `Math.abs` on return. -/
def fitCubicCurve (l : List DataPoint) : FitCoefficients :=
  if l.length < 3 then { a := 0, b := 0, c := 0, rSquared := 0 }
  else
    { a := |fitA l|, b := |(0 : ℚ)|, c := |fitC l|, rSquared := fitRSquared l }

/-- The loop `for (let n = startN; n <= endN; n += step)` of `runAnalysis`
(source line 194), as the list of visited sizes. The first argument is
fuel bounding the number of iterations; `sweepSizes` below supplies fuel
that is sufficient whenever `step ≥ 1` (with `step = 0` the JavaScript
loop does not terminate either). -/
def sweepLoopAux (endN step : Nat) : Nat → Nat → List Nat
  | 0, _ => []
  | fuel + 1, n =>
    if n ≤ endN then n :: sweepLoopAux endN step fuel (n + step) else []

/-- The sizes visited by the sweep loop of `runAnalysis`. -/
def sweepSizes (startN endN step : Nat) : List Nat :=
  sweepLoopAux endN step (endN + 1 - startN) startN

/-- The progress value reported after processing size `n` (source lines
216–217): `Math.min(((n - startN) / (endN - startN)) * 100, 100)` under
JavaScript float semantics. With a nonzero denominator the reported value
is the real number carried by `some`. With a zero denominator the division
is non-finite: `0/0` gives NaN, and `Math.min(NaN, 100) = NaN` (`none`: no
real number is reported); a positive numerator gives `+∞`, whose
`Math.min` with 100 is 100; a negative numerator gives `-∞`, and
`Math.min` keeps `-∞` (`none` again: no real number is reported). A sweep
with `endN = startN` visits only `n = startN`, so the NaN branch is the
one such a sweep reports. -/
def progressAt (startN endN n : Nat) : Option ℚ :=
  if (endN : ℚ) - (startN : ℚ) = 0 then
    if (n : ℚ) - (startN : ℚ) = 0 then none
    else if 0 < (n : ℚ) - (startN : ℚ) then some 100
    else none
  else
    some (min ((((n : ℚ) - (startN : ℚ)) / ((endN : ℚ) - (startN : ℚ))) * 100)
      100)

/-- The body of the sweep loop of `runAnalysis` (source lines 194–220),
assembling one `DataPoint` from the `measureFLOPS` record for size `n`,
together with the theoretical operation count `2n³ - n²` scaled by 1e-6. -/
def sweepPoint (measurements : Nat)
    (mats : Nat → Nat → (Nat → Nat → ℚ) × (Nat → Nat → ℚ))
    (elapsed : Nat → Nat → ℚ) (sqrtFn : ℚ → ℚ) (n : Nat) : DataPoint :=
  let r := measureFLOPS n measurements (mats n) (elapsed n) sqrtFn
  let theoreticalOps : ℚ := 2 * (n : ℚ) ^ 3 - (n : ℚ) ^ 2
  let theoretical := theoreticalOps * 0.000001
  { n := n, time := r.avgTime, operations := r.flops, flops := r.avgFLOPS,
    gflops := r.gflops, teraflops := r.teraflops,
    teraflopsSeconds := r.teraflopsSeconds, theoretical := theoretical,
    standardDeviation := r.stdDev }

/-- The `dataPoints` array accumulated by the sweep loop of `runAnalysis`. -/
def runAnalysisDataPoints (startN endN step measurements : Nat)
    (mats : Nat → Nat → (Nat → Nat → ℚ) × (Nat → Nat → ℚ))
    (elapsed : Nat → Nat → ℚ) (sqrtFn : ℚ → ℚ) : List DataPoint :=
  (sweepSizes startN endN step).map
    (sweepPoint measurements mats elapsed sqrtFn)

/-- The summary assembled by `runAnalysis` after the loop (source lines
222–251): the cubic fit, the last-point theoretical coefficient, average
GFLOPS, maximum TFLOPS (`Math.max` over the nonempty list of teraflops
values, all of which a sweep produces nonnegative), the complexity label
from the `rSquared` thresholds, and the accumulated teraflops-seconds. -/
def computeSummary (dataPoints : List DataPoint) : AnalysisResult :=
  let coefficients := fitCubicCurve dataPoints
  let theoreticalCoeff : ℚ :=
    if 1 < dataPoints.length then
      (dataPoints.getLastD default).time / ((dataPoints.getLastD default).n : ℚ) ^ 3
    else 0
  let avgGFLOPS := (dataPoints.map (·.gflops)).sum / (dataPoints.length : ℚ)
  let maxTFLOPS := (dataPoints.map (·.teraflops)).foldl max 0
  let complexity : String :=
    if 0.9 < coefficients.rSquared then "O(n³)"
    else if 0.7 < coefficients.rSquared then "≈ O(n³)"
    else "Complejo"
  let totalTeraflopsSeconds := (dataPoints.map (·.teraflopsSeconds)).sum
  { dataPoints := dataPoints, complexity := complexity,
    rSquared := coefficients.rSquared, coefficients := coefficients,
    theoreticalCoeff := theoreticalCoeff, avgGFLOPS := avgGFLOPS,
    maxTFLOPS := maxTFLOPS, totalTeraflopsSeconds := totalTeraflopsSeconds }

/-- A concrete three-point data set whose times are exactly `n³`
(`k = 1`), used as a test vector for the fit. -/
def cubicSample : List DataPoint :=
  [{ n := 1, time := 1, operations := 0, flops := 0, gflops := 0,
     teraflops := 0, teraflopsSeconds := 0, theoretical := 0,
     standardDeviation := 0 },
   { n := 2, time := 8, operations := 0, flops := 0, gflops := 0,
     teraflops := 0, teraflopsSeconds := 0, theoretical := 0,
     standardDeviation := 0 },
   { n := 3, time := 27, operations := 0, flops := 0, gflops := 0,
     teraflops := 0, teraflopsSeconds := 0, theoretical := 0,
     standardDeviation := 0 }]

/-- The component state touched by `runAnalysis`: the `isRunning`,
`progress`, `results` and `currentTest` React state variables. -/
structure UIState where
  isRunning : Bool
  progress : ℚ
  results : Option AnalysisResult
  currentTest : String

/-- Final-state semantics of `runAnalysis` (source lines 181–259). If a run
is already in progress (`isRunning`), the early `return` leaves the state
unchanged. Otherwise the body runs the sweep inside `try`/`catch`/`finally`:
`trialsSucceed` records whether every trial completed without throwing
(an allocation failure is outside the embedding, so it is an oracle
Boolean). On success `setResults` publishes the summary; on a throw the
`catch` only logs, so `results` keeps the `null` set at the start of the
body; either way the `finally` block clears `isRunning`, `currentTest`
and `progress`. Intermediate `setState` calls of the loop are elided:
only the state after the function completes is modelled. -/
def runAnalysis (s : UIState) (startN endN step measurements : Nat)
    (mats : Nat → Nat → (Nat → Nat → ℚ) × (Nat → Nat → ℚ))
    (elapsed : Nat → Nat → ℚ) (sqrtFn : ℚ → ℚ) (trialsSucceed : Bool) :
    UIState :=
  if s.isRunning then s
  else
    let dataPoints :=
      runAnalysisDataPoints startN endN step measurements mats elapsed sqrtFn
    let results :=
      if trialsSucceed then some (computeSummary dataPoints) else none
    { isRunning := false, progress := 0, results := results, currentTest := "" }

/-! ### Basic unfolding lemmas and list helpers -/

theorem multiplyMatricesWithFLOPS_fst (a b : Nat → Nat → ℚ) (n : Nat) :
    (multiplyMatricesWithFLOPS a b n).1 =
      (List.range n).map fun i =>
        (List.range n).map fun j =>
          (List.range n).foldl (fun acc k => acc + a i k * b k j) 0 := rfl

theorem multiplyMatricesWithFLOPS_snd (a b : Nat → Nat → ℚ) (n : Nat) :
    (multiplyMatricesWithFLOPS a b n).2 =
      (List.range n).foldl (fun f _ =>
        (List.range n).foldl (fun f _ =>
          (List.range n).foldl (fun f _ => f + 2) f) f) 0 := rfl

theorem foldl_const_step (c : Nat) :
    ∀ (l : List Nat) (init : Nat),
      l.foldl (fun f _ => f + c) init = init + c * l.length := by
  intro l
  induction l with
  | nil => intro init; simp
  | cons x xs ih =>
    intro init
    simp only [List.foldl_cons, ih, List.length_cons]
    ring

/-- The operation counter of the multiplier is `2·n³`, whatever the matrix
contents: each of the `n·n·n` innermost iterations adds 2. -/
theorem multiplyMatricesWithFLOPS_flops (a b : Nat → Nat → ℚ) (n : Nat) :
    (multiplyMatricesWithFLOPS a b n).2 = 2 * n ^ 3 := by
  rw [multiplyMatricesWithFLOPS_snd]
  simp only [foldl_const_step, List.length_range]
  ring

theorem foldl_add_eq_sum (g : Nat → ℚ) :
    ∀ (n : Nat) (init : ℚ),
      (List.range n).foldl (fun acc k => acc + g k) init =
        init + ∑ k ∈ Finset.range n, g k := by
  intro n
  induction n with
  | zero => intro init; simp
  | succ m ih =>
    intro init
    rw [List.range_succ, List.foldl_append, ih, List.foldl_cons,
      List.foldl_nil, Finset.sum_range_succ, add_assoc]

/-! ### C1 and C2: the multiplier -/

/-- C1: for every `n` and any two matrices, the multiplier returns an
operation count of exactly `2·n³`, independent of the matrix contents; for
`n = 0` the count is `2·0³ = 0` and the result matrix is empty. -/
theorem claim_C1_flops_count (a b : Nat → Nat → ℚ) (n : Nat) :
    (multiplyMatricesWithFLOPS a b n).2 = 2 * n ^ 3 ∧
      (multiplyMatricesWithFLOPS a b 0).1 = [] := by
  refine ⟨multiplyMatricesWithFLOPS_flops a b n, ?_⟩
  rw [multiplyMatricesWithFLOPS_fst]
  simp

/-- C2: every entry of the result matrix is the standard product entry,
`result[i][j] = Σ_{k<n} a[i][k]·b[k][j]`. -/
theorem claim_C2_product_entries (a b : Nat → Nat → ℚ) (n i j : Nat)
    (hi : i < n) (hj : j < n) :
    getEntry (multiplyMatricesWithFLOPS a b n).1 i j =
      ∑ k ∈ Finset.range n, a i k * b k j := by
  unfold getEntry
  rw [multiplyMatricesWithFLOPS_fst]
  have h1 : ((List.range n).map fun i =>
        (List.range n).map fun j =>
          (List.range n).foldl (fun acc k => acc + a i k * b k j) 0).getD i [] =
      (List.range n).map fun j =>
        (List.range n).foldl (fun acc k => acc + a i k * b k j) 0 := by
    rw [List.getD_eq_getElem _ _ (by simpa using hi), List.getElem_map,
      List.getElem_range]
  rw [h1]
  rw [List.getD_eq_getElem _ _ (by simpa using hj), List.getElem_map,
    List.getElem_range]
  rw [foldl_add_eq_sum, zero_add]

/-- Witness for C2 at a concrete input: a 2×2 product entry. -/
theorem claim_C2_witness :
    getEntry (multiplyMatricesWithFLOPS
        (fun i k => (i : ℚ) + 2 * k) (fun k j => (k : ℚ) * j + 1) 2).1 0 1 =
      ∑ k ∈ Finset.range 2, ((0 : ℚ) + 2 * k) * ((k : ℚ) * 1 + 1) := by
  exact claim_C2_product_entries (fun i k => (i : ℚ) + 2 * k)
    (fun k j => (k : ℚ) * j + 1) 2 0 1 (by decide) (by decide)

/-! ### List sum helpers -/

theorem sum_map_const {α : Type} {l : List α} {f : α → ℚ} {c : ℚ}
    (h : ∀ x ∈ l, f x = c) : (l.map f).sum = (l.length : ℚ) * c := by
  induction l with
  | nil => simp
  | cons x xs ih =>
    simp only [List.map_cons, List.sum_cons, List.length_cons]
    rw [h x (by simp), ih (fun y hy => h y (by simp [hy]))]
    push_cast
    ring

/-! ### Field lemmas for `runTrial` and `measureFLOPS` -/

theorem runTrial_elapsed (n : Nat) (A B : Nat → Nat → ℚ) (t : ℚ) :
    (runTrial n A B t).elapsed = t := rfl

theorem runTrial_flops (n : Nat) (A B : Nat → Nat → ℚ) (t : ℚ) :
    (runTrial n A B t).flops = (multiplyMatricesWithFLOPS A B n).2 := rfl

theorem runTrial_currentFLOPS (n : Nat) (A B : Nat → Nat → ℚ) (t : ℚ) :
    (runTrial n A B t).currentFLOPS =
      ((multiplyMatricesWithFLOPS A B n).2 : ℚ) / (t / 1000) := rfl

theorem runTrial_teraflopsSeconds_def (n : Nat) (A B : Nat → Nat → ℚ) (t : ℚ) :
    (runTrial n A B t).teraflopsSeconds =
      (t / 1000) * ((((multiplyMatricesWithFLOPS A B n).2 : ℚ) / (t / 1000)) /
        1000000000000) := rfl

/-- The per-trial teraflops-seconds value collapses to `2n³/10¹²` whenever
the measured elapsed time is strictly positive: the time and rate factors
cancel. -/
theorem runTrial_teraflopsSeconds (n : Nat) (A B : Nat → Nat → ℚ) (t : ℚ)
    (ht : 0 < t) :
    (runTrial n A B t).teraflopsSeconds = 2 * (n : ℚ) ^ 3 / 1000000000000 := by
  rw [runTrial_teraflopsSeconds_def, multiplyMatricesWithFLOPS_flops]
  have h1000 : t / 1000 ≠ 0 := by positivity
  push_cast
  field_simp
  ring

theorem measureFLOPS_teraflopsSeconds_def (n m : Nat)
    (mats : Nat → (Nat → Nat → ℚ) × (Nat → Nat → ℚ))
    (elapsed : Nat → ℚ) (sqrtFn : ℚ → ℚ) :
    (measureFLOPS n m mats elapsed sqrtFn).teraflopsSeconds =
      ((((List.range m).map fun i =>
          runTrial n (mats i).1 (mats i).2 (elapsed i)).map
            (·.teraflopsSeconds)).sum) /
        (((((List.range m).map fun i =>
          runTrial n (mats i).1 (mats i).2 (elapsed i)).map
            (·.teraflopsSeconds)).length : ℚ)) := rfl

theorem measureFLOPS_avgFLOPS_def (n m : Nat)
    (mats : Nat → (Nat → Nat → ℚ) × (Nat → Nat → ℚ))
    (elapsed : Nat → ℚ) (sqrtFn : ℚ → ℚ) :
    (measureFLOPS n m mats elapsed sqrtFn).avgFLOPS =
      ((((List.range m).map fun i =>
          runTrial n (mats i).1 (mats i).2 (elapsed i)).map
            (·.currentFLOPS)).sum) /
        (((((List.range m).map fun i =>
          runTrial n (mats i).1 (mats i).2 (elapsed i)).map
            (·.currentFLOPS)).length : ℚ)) := rfl

theorem measureFLOPS_gflops_def (n m : Nat)
    (mats : Nat → (Nat → Nat → ℚ) × (Nat → Nat → ℚ))
    (elapsed : Nat → ℚ) (sqrtFn : ℚ → ℚ) :
    (measureFLOPS n m mats elapsed sqrtFn).gflops =
      (measureFLOPS n m mats elapsed sqrtFn).avgFLOPS / 1000000000 := rfl

theorem measureFLOPS_teraflops_def (n m : Nat)
    (mats : Nat → (Nat → Nat → ℚ) × (Nat → Nat → ℚ))
    (elapsed : Nat → ℚ) (sqrtFn : ℚ → ℚ) :
    (measureFLOPS n m mats elapsed sqrtFn).teraflops =
      (measureFLOPS n m mats elapsed sqrtFn).avgFLOPS / 1000000000000 := rfl

/-! ### C4: the teraflops-seconds identity -/

/-- C4 counterexample: at a measured elapsed time of 0 milliseconds (two
equal clock readings) the identity fails — the division yields the junk
value instead of cancelling, so the teraflops-seconds of the trial is 0, not
`2·1³/10¹²`. -/
theorem claim_C4_counterexample :
    ¬ ((runTrial 1 (fun _ _ => 0) (fun _ _ => 0) 0).teraflopsSeconds =
        2 * (1 : ℚ) ^ 3 / 1000000000000) := by
  rw [runTrial_teraflopsSeconds_def, multiplyMatricesWithFLOPS_flops]
  norm_num

/-- C4 (amended): for every trial whose measured elapsed time is strictly
positive, the derived teraflops-seconds equals `totalFlops/10¹² = 2n³/10¹²`,
a constant independent of the measured speed; with at least one measurement
the averaged `teraflopsSeconds` of the `measureFLOPS` record is the same
constant. -/
theorem claim_C4_teraflopsSeconds_constant (n m : Nat)
    (mats : Nat → (Nat → Nat → ℚ) × (Nat → Nat → ℚ))
    (elapsed : Nat → ℚ) (sqrtFn : ℚ → ℚ)
    (hm : 0 < m) (hpos : ∀ i, i < m → 0 < elapsed i) :
    (∀ i, i < m →
      (runTrial n (mats i).1 (mats i).2 (elapsed i)).teraflopsSeconds =
        2 * (n : ℚ) ^ 3 / 1000000000000) ∧
    (measureFLOPS n m mats elapsed sqrtFn).teraflopsSeconds =
      2 * (n : ℚ) ^ 3 / 1000000000000 := by
  have htrial : ∀ i, i < m →
      (runTrial n (mats i).1 (mats i).2 (elapsed i)).teraflopsSeconds =
        2 * (n : ℚ) ^ 3 / 1000000000000 := by
    intro i him
    exact runTrial_teraflopsSeconds n _ _ _ (hpos i him)
  refine ⟨htrial, ?_⟩
  rw [measureFLOPS_teraflopsSeconds_def, List.map_map]
  rw [sum_map_const (c := 2 * (n : ℚ) ^ 3 / 1000000000000) ?hconst]
  case hconst =>
    intro i hi
    exact htrial i (List.mem_range.mp hi)
  simp only [List.length_map, List.length_range]
  rw [mul_div_cancel_left₀ _ (by exact_mod_cast hm.ne')]

/-- Witness for C4 (amended) at `n = 1`, one measurement of 5 ms. -/
theorem claim_C4_witness :
    (0 < 1 ∧ ∀ i, i < 1 → (0 : ℚ) < 5) ∧
    (measureFLOPS 1 1 (fun _ => (fun _ _ => 0, fun _ _ => 0)) (fun _ => 5)
        id).teraflopsSeconds = 2 * (1 : ℚ) ^ 3 / 1000000000000 := by
  refine ⟨⟨Nat.one_pos, fun i _ => by norm_num⟩, ?_⟩
  exact (claim_C4_teraflopsSeconds_constant 1 1
    (fun _ => (fun _ _ => 0, fun _ _ => 0)) (fun _ => 5) id Nat.one_pos
    (fun i _ => by norm_num)).2

/-! ### C10: positivity of elapsed time keeps every division well defined -/

/-- C10: `measureFLOPS` divides by the measured elapsed seconds with no zero
guard. Under the precondition that the elapsed time of every trial is strictly
positive (and at least one trial runs), every such denominator
`timeInSeconds` is nonzero — so the Infinity/NaN branch of JavaScript
division is unreachable — and all derived rate fields (`avgFLOPS`,
`gflops`, `teraflops`) and `teraflopsSeconds`, per trial and aggregated,
are non-negative. -/
theorem claim_C10_positive_time_safety (n m : Nat)
    (mats : Nat → (Nat → Nat → ℚ) × (Nat → Nat → ℚ))
    (elapsed : Nat → ℚ) (sqrtFn : ℚ → ℚ)
    (_hm : 0 < m) (hpos : ∀ i, i < m → 0 < elapsed i) :
    (∀ i, i < m →
      (runTrial n (mats i).1 (mats i).2 (elapsed i)).elapsed / 1000 ≠ 0 ∧
      0 ≤ (runTrial n (mats i).1 (mats i).2 (elapsed i)).currentFLOPS ∧
      0 ≤ (runTrial n (mats i).1 (mats i).2 (elapsed i)).teraflopsSeconds) ∧
    0 ≤ (measureFLOPS n m mats elapsed sqrtFn).avgFLOPS ∧
    0 ≤ (measureFLOPS n m mats elapsed sqrtFn).gflops ∧
    0 ≤ (measureFLOPS n m mats elapsed sqrtFn).teraflops ∧
    0 ≤ (measureFLOPS n m mats elapsed sqrtFn).teraflopsSeconds := by
  have hcf : ∀ i, i < m →
      0 ≤ (runTrial n (mats i).1 (mats i).2 (elapsed i)).currentFLOPS := by
    intro i him
    rw [runTrial_currentFLOPS]
    have h := hpos i him
    positivity
  have htfs : ∀ i, i < m →
      0 ≤ (runTrial n (mats i).1 (mats i).2 (elapsed i)).teraflopsSeconds := by
    intro i him
    rw [runTrial_teraflopsSeconds n _ _ _ (hpos i him)]
    positivity
  have havg : 0 ≤ (measureFLOPS n m mats elapsed sqrtFn).avgFLOPS := by
    rw [measureFLOPS_avgFLOPS_def, List.map_map]
    apply div_nonneg
    · apply List.sum_nonneg
      intro x hx
      simp only [List.mem_map, List.mem_range] at hx
      obtain ⟨i, him, rfl⟩ := hx
      exact hcf i him
    · positivity
  refine ⟨fun i him => ⟨?_, hcf i him, htfs i him⟩, havg, ?_, ?_, ?_⟩
  · rw [runTrial_elapsed]
    have h := hpos i him
    exact (by positivity : (0 : ℚ) < elapsed i / 1000).ne'
  · rw [measureFLOPS_gflops_def]
    exact div_nonneg havg (by norm_num)
  · rw [measureFLOPS_teraflops_def]
    exact div_nonneg havg (by norm_num)
  · rw [measureFLOPS_teraflopsSeconds_def, List.map_map]
    apply div_nonneg
    · apply List.sum_nonneg
      intro x hx
      simp only [List.mem_map, List.mem_range] at hx
      obtain ⟨i, him, rfl⟩ := hx
      exact htfs i him
    · positivity

/-- Witness for C10 at `n = 2`, two measurements of 1 ms each. -/
theorem claim_C10_witness :
    (0 < 2 ∧ ∀ i, i < 2 → (0 : ℚ) < 1) ∧
    0 ≤ (measureFLOPS 2 2 (fun _ => (fun _ _ => 1, fun _ _ => 1))
        (fun _ => (1 : ℚ)) id).avgFLOPS := by
  exact ⟨⟨by norm_num, fun i _ => one_pos⟩,
    (claim_C10_positive_time_safety 2 2 (fun _ => (fun _ _ => 1, fun _ _ => 1))
      (fun _ => (1 : ℚ)) id (by norm_num) (fun i _ => one_pos)).2.1⟩

/-! ### C6: the short-input branch of the fit -/

/-- C6: with fewer than 3 data points, `fitCubicCurve` returns the
zero-valued record `a = b = c = 0`, `rSquared = 0`. -/
theorem claim_C6_fit_too_few (l : List DataPoint) (h : l.length < 3) :
    fitCubicCurve l = { a := 0, b := 0, c := 0, rSquared := 0 } := by
  simp [fitCubicCurve, h]

/-- Witness for C6 on the empty input. -/
theorem claim_C6_witness :
    ([] : List DataPoint).length < 3 ∧
    fitCubicCurve [] = { a := 0, b := 0, c := 0, rSquared := 0 } :=
  ⟨by norm_num, claim_C6_fit_too_few [] (by norm_num)⟩

/-! ### C8 and C9: guard and reset behaviour of the sweep controller -/

/-- C8: if a sweep is already in progress (`isRunning = true`), a second
`runAnalysis` request returns immediately with the state unchanged — no
second concurrent sweep is started. -/
theorem claim_C8_second_run_noop (s : UIState)
    (startN endN step measurements : Nat)
    (mats : Nat → Nat → (Nat → Nat → ℚ) × (Nat → Nat → ℚ))
    (elapsed : Nat → Nat → ℚ) (sqrtFn : ℚ → ℚ) (trialsSucceed : Bool)
    (h : s.isRunning = true) :
    runAnalysis s startN endN step measurements mats elapsed sqrtFn
      trialsSucceed = s := by
  simp [runAnalysis, h]

/-- Witness for C8: a concrete in-progress state is returned unchanged. -/
theorem claim_C8_witness :
    (UIState.mk true 42 none "busy").isRunning = true ∧
    runAnalysis (UIState.mk true 42 none "busy") 1 2 1 1
      (fun _ _ => (fun _ _ => 0, fun _ _ => 0)) (fun _ _ => 1) id true =
      UIState.mk true 42 none "busy" :=
  ⟨rfl, claim_C8_second_run_noop (UIState.mk true 42 none "busy") 1 2 1 1
    (fun _ _ => (fun _ _ => 0, fun _ _ => 0)) (fun _ _ => 1) id true rfl⟩

/-- C9: when a run actually starts (`isRunning = false`), the function
always finishes with the running flag cleared, progress 0 and an empty
status label (the `finally` block), and if any trial threw, no summary is
published: `results` stays `none`. -/
theorem claim_C9_failure_leaves_no_result (s : UIState)
    (startN endN step measurements : Nat)
    (mats : Nat → Nat → (Nat → Nat → ℚ) × (Nat → Nat → ℚ))
    (elapsed : Nat → Nat → ℚ) (sqrtFn : ℚ → ℚ) (trialsSucceed : Bool)
    (h : s.isRunning = false) :
    (runAnalysis s startN endN step measurements mats elapsed sqrtFn
      trialsSucceed).isRunning = false ∧
    (runAnalysis s startN endN step measurements mats elapsed sqrtFn
      trialsSucceed).progress = 0 ∧
    (runAnalysis s startN endN step measurements mats elapsed sqrtFn
      trialsSucceed).currentTest = "" ∧
    (trialsSucceed = false →
      (runAnalysis s startN endN step measurements mats elapsed sqrtFn
        trialsSucceed).results = none) := by
  cases trialsSucceed <;> simp [runAnalysis, h]

/-- Witness for C9: a concrete failing sweep resets to idle with no
published result. -/
theorem claim_C9_witness :
    (UIState.mk false 7 none "x").isRunning = false ∧
    ((runAnalysis (UIState.mk false 7 none "x") 1 2 1 1
        (fun _ _ => (fun _ _ => 0, fun _ _ => 0)) (fun _ _ => 1) id
        false).isRunning = false ∧
      (runAnalysis (UIState.mk false 7 none "x") 1 2 1 1
        (fun _ _ => (fun _ _ => 0, fun _ _ => 0)) (fun _ _ => 1) id
        false).progress = 0 ∧
      (runAnalysis (UIState.mk false 7 none "x") 1 2 1 1
        (fun _ _ => (fun _ _ => 0, fun _ _ => 0)) (fun _ _ => 1) id
        false).currentTest = "" ∧
      (false = false →
        (runAnalysis (UIState.mk false 7 none "x") 1 2 1 1
          (fun _ _ => (fun _ _ => 0, fun _ _ => 0)) (fun _ _ => 1) id
          false).results = none)) :=
  ⟨rfl, claim_C9_failure_leaves_no_result (UIState.mk false 7 none "x") 1 2 1 1
    (fun _ _ => (fun _ _ => 0, fun _ _ => 0)) (fun _ _ => 1) id false rfl⟩

/-! ### C3: the sizes visited by the sweep loop -/

theorem sweepLoopAux_stop (endN step fuel n : Nat) (h : endN < n) :
    sweepLoopAux endN step fuel n = [] := by
  cases fuel with
  | zero => rfl
  | succ f => simp [sweepLoopAux, Nat.not_le.mpr h]

theorem sweepLoopAux_closed (endN step : Nat) (hstep : 0 < step) :
    ∀ fuel n, n ≤ endN → endN + 1 - n ≤ fuel →
      sweepLoopAux endN step fuel n =
        (List.range ((endN - n) / step + 1)).map (fun i => n + step * i) := by
  intro fuel
  induction fuel with
  | zero => intro n hn hf; omega
  | succ f ih =>
    intro n hn hf
    rw [sweepLoopAux, if_pos hn]
    by_cases h2 : n + step ≤ endN
    · rw [ih (n + step) h2 (by omega)]
      have hdiv : (endN - n) / step = (endN - (n + step)) / step + 1 := by
        have h3 : step ≤ endN - n := by omega
        rw [Nat.div_eq_sub_div hstep h3]
        have h4 : endN - n - step = endN - (n + step) := by omega
        rw [h4]
      have hr : (List.range ((endN - (n + step)) / step + 1 + 1)).map
            (fun i => n + step * i) =
          n :: (List.range ((endN - (n + step)) / step + 1)).map
            (fun i => n + step + step * i) := by
        rw [List.range_succ_eq_map, List.map_cons, List.map_map]
        simp only [Nat.mul_zero, Nat.add_zero]
        congr 1
        apply List.map_congr_left
        intro i _
        simp only [Function.comp_apply, Nat.succ_eq_add_one, Nat.mul_add,
          Nat.mul_one]
        omega
      rw [hdiv, hr]
    · rw [sweepLoopAux_stop endN step f (n + step) (by omega)]
      have h0 : (endN - n) / step = 0 := Nat.div_eq_of_lt (by omega)
      rw [h0]
      simp [List.range_succ]

/-- Closed form for the sweep loop: with `startN ≤ endN` and `step ≥ 1` it
visits exactly the arithmetic progression
`startN, startN + step, …, startN + step·⌊(endN − startN)/step⌋`. -/
theorem sweepSizes_closed (startN endN step : Nat) (hse : startN ≤ endN)
    (hstep : 0 < step) :
    sweepSizes startN endN step =
      (List.range ((endN - startN) / step + 1)).map
        (fun i => startN + step * i) :=
  sweepLoopAux_closed endN step hstep _ startN hse (by omega)

theorem sweepSizes_mem (startN endN step : Nat) (hse : startN ≤ endN)
    (hstep : 0 < step) (x : Nat) :
    x ∈ sweepSizes startN endN step ↔
      (∃ i, x = startN + step * i) ∧ x ≤ endN := by
  rw [sweepSizes_closed startN endN step hse hstep, List.mem_map]
  constructor
  · rintro ⟨i, hi, rfl⟩
    rw [List.mem_range] at hi
    refine ⟨⟨i, rfl⟩, ?_⟩
    have h1 : i ≤ (endN - startN) / step := by omega
    have h2 : i * step ≤ (endN - startN) / step * step :=
      Nat.mul_le_mul_right _ h1
    have h3 : (endN - startN) / step * step ≤ endN - startN :=
      Nat.div_mul_le_self _ _
    have h4 : step * i ≤ endN - startN := by
      rw [Nat.mul_comm]
      omega
    omega
  · rintro ⟨⟨i, rfl⟩, hle⟩
    refine ⟨i, ?_, rfl⟩
    rw [List.mem_range]
    have h1 : i * step ≤ endN - startN := by
      have := Nat.mul_comm step i
      omega
    have h2 : i ≤ (endN - startN) / step :=
      (Nat.le_div_iff_mul_le hstep).mpr h1
    omega

theorem runAnalysisDataPoints_map_n (startN endN step measurements : Nat)
    (mats : Nat → Nat → (Nat → Nat → ℚ) × (Nat → Nat → ℚ))
    (elapsed : Nat → Nat → ℚ) (sqrtFn : ℚ → ℚ) :
    (runAnalysisDataPoints startN endN step measurements mats elapsed
      sqrtFn).map (fun p => p.n) = sweepSizes startN endN step := by
  unfold runAnalysisDataPoints
  rw [List.map_map,
    show ((fun p : DataPoint => p.n) ∘
        sweepPoint measurements mats elapsed sqrtFn) = id from
      funext fun n => rfl,
    List.map_id]

/-- C3: for positive `startN`, `step` with `startN ≤ endN`, the sweep
produces one `DataPoint` per size, the sizes numbering
`⌊(endN − startN)/step⌋ + 1`, strictly increasing, and exactly the members
of the arithmetic progression `startN, startN + step, …` that are
`≤ endN`. -/
theorem claim_C3_sweep_sizes (startN endN step measurements : Nat)
    (mats : Nat → Nat → (Nat → Nat → ℚ) × (Nat → Nat → ℚ))
    (elapsed : Nat → Nat → ℚ) (sqrtFn : ℚ → ℚ)
    (_hs : 0 < startN) (hse : startN ≤ endN) (hstep : 0 < step) :
    ((runAnalysisDataPoints startN endN step measurements mats elapsed
      sqrtFn).map (fun p => p.n)).length = (endN - startN) / step + 1 ∧
    ((runAnalysisDataPoints startN endN step measurements mats elapsed
      sqrtFn).map (fun p => p.n)).Pairwise (· < ·) ∧
    ∀ x, x ∈ (runAnalysisDataPoints startN endN step measurements mats
        elapsed sqrtFn).map (fun p => p.n) ↔
      (∃ i, x = startN + step * i) ∧ x ≤ endN := by
  rw [runAnalysisDataPoints_map_n]
  refine ⟨?_, ?_, sweepSizes_mem startN endN step hse hstep⟩
  · rw [sweepSizes_closed startN endN step hse hstep]
    simp
  · rw [sweepSizes_closed startN endN step hse hstep, List.pairwise_map]
    apply List.Pairwise.imp ?_ (List.pairwise_lt_range _)
    intro a b hab
    have h1 : step * a < step * b := mul_lt_mul_of_pos_left hab hstep
    omega

/-- Witness for C3: the concrete scenario of the spec,
`startN = 100, endN = 300, step = 100` gives the three sizes
100, 200, 300. -/
theorem claim_C3_witness :
    (0 < 100 ∧ 100 ≤ 300 ∧ 0 < 100) ∧
    (((runAnalysisDataPoints 100 300 100 1
        (fun _ _ => (fun _ _ => 0, fun _ _ => 0)) (fun _ _ => 1) id).map
        (fun p => p.n)).length = (300 - 100) / 100 + 1 ∧
      ((runAnalysisDataPoints 100 300 100 1
        (fun _ _ => (fun _ _ => 0, fun _ _ => 0)) (fun _ _ => 1) id).map
        (fun p => p.n)).Pairwise (· < ·) ∧
      ∀ x, x ∈ (runAnalysisDataPoints 100 300 100 1
          (fun _ _ => (fun _ _ => 0, fun _ _ => 0)) (fun _ _ => 1) id).map
          (fun p => p.n) ↔
        (∃ i, x = 100 + 100 * i) ∧ x ≤ 300) :=
  ⟨⟨by norm_num, by norm_num, by norm_num⟩,
    claim_C3_sweep_sizes 100 300 100 1
      (fun _ _ => (fun _ _ => 0, fun _ _ => 0)) (fun _ _ => 1) id
      (by norm_num) (by norm_num) (by norm_num)⟩

/-! ### C7: the reported progress value -/

/-- C7 counterexample: the configuration `startN = endN = 100` is allowed
by the claim (`startN ≤ endN`; the UI clamp `endN = Math.max(startN, …)`
makes it reachable) and its sweep processes the size `n = 100`, yet the
progress reported there is `Math.min((0/0)·100, 100) = NaN` — no real
number at all, so it neither equals the ratio as a percentage nor lies in
`[0, 100]`. -/
theorem claim_C7_counterexample :
    (100 ≤ 100 ∧ 0 < 100 ∧ 100 ∈ sweepSizes 100 100 100) ∧
    progressAt 100 100 100 = none ∧
    ¬∃ q : ℚ, progressAt 100 100 100 = some q ∧ 0 ≤ q ∧ q ≤ 100 := by
  have hnan : progressAt 100 100 100 = none := by norm_num [progressAt]
  refine ⟨⟨le_refl 100, by norm_num, by decide⟩, hnan, ?_⟩
  rintro ⟨q, hq, -⟩
  rw [hnan] at hq
  exact Option.noConfusion hq

/-- C7 (amended): after each size `n` processed during a sweep with
`startN < endN` (strictly), the reported progress is the real number
`(n − startN)/(endN − startN)` expressed as a percentage and lies in
`[0, 100]` (the `Math.min` clamp is inactive because the ratio never
exceeds 1); at the degenerate configuration `startN = endN` the division
`0/0` makes the reported value NaN instead. -/
theorem claim_C7_progress_bounds (startN endN step n : Nat)
    (hlt : startN < endN) (hstep : 0 < step)
    (hn : n ∈ sweepSizes startN endN step) :
    progressAt startN endN n =
      some ((((n : ℚ) - (startN : ℚ)) / ((endN : ℚ) - (startN : ℚ))) * 100) ∧
    0 ≤ (((n : ℚ) - (startN : ℚ)) / ((endN : ℚ) - (startN : ℚ))) * 100 ∧
    (((n : ℚ) - (startN : ℚ)) / ((endN : ℚ) - (startN : ℚ))) * 100 ≤ 100 := by
  obtain ⟨⟨i, hxi⟩, hle⟩ :=
    (sweepSizes_mem startN endN step hlt.le hstep _).mp hn
  have h1 : startN ≤ n := by omega
  have hnq : (startN : ℚ) ≤ (n : ℚ) := by exact_mod_cast h1
  have heq : (n : ℚ) ≤ (endN : ℚ) := by exact_mod_cast hle
  have hdq : (0 : ℚ) < (endN : ℚ) - (startN : ℚ) := by
    have : (startN : ℚ) < (endN : ℚ) := by exact_mod_cast hlt
    linarith
  have hratio_le :
      ((n : ℚ) - (startN : ℚ)) / ((endN : ℚ) - (startN : ℚ)) ≤ 1 := by
    rw [div_le_one hdq]
    linarith
  have hle100 :
      ((n : ℚ) - (startN : ℚ)) / ((endN : ℚ) - (startN : ℚ)) * 100 ≤ 100 := by
    have h2 := mul_le_mul_of_nonneg_right hratio_le
      (by norm_num : (0 : ℚ) ≤ 100)
    simpa using h2
  have hnonneg :
      0 ≤ ((n : ℚ) - (startN : ℚ)) / ((endN : ℚ) - (startN : ℚ)) * 100 :=
    mul_nonneg (div_nonneg (by linarith) hdq.le) (by norm_num)
  refine ⟨?_, hnonneg, hle100⟩
  unfold progressAt
  rw [if_neg hdq.ne', min_eq_left hle100]

/-- Witness for C7 (amended): size 200 of the sweep 100..300 by 100
reports 50%. -/
theorem claim_C7_witness :
    (100 < 300 ∧ 0 < 100 ∧ 200 ∈ sweepSizes 100 300 100) ∧
    (progressAt 100 300 200 =
      some ((((200 : ℚ) - (100 : ℚ)) / ((300 : ℚ) - (100 : ℚ))) * 100) ∧
    0 ≤ (((200 : ℚ) - (100 : ℚ)) / ((300 : ℚ) - (100 : ℚ))) * 100 ∧
    (((200 : ℚ) - (100 : ℚ)) / ((300 : ℚ) - (100 : ℚ))) * 100 ≤ 100) :=
  ⟨⟨by norm_num, by norm_num, by decide⟩,
    claim_C7_progress_bounds 100 300 100 200 (by norm_num) (by norm_num)
      (by decide)⟩

/-! ### C5: the fit is perfect on exactly-cubic data -/

theorem cube_cast_ne {a b : Nat} (h : a ≠ b) :
    ((a : ℚ)) ^ 3 ≠ ((b : ℚ)) ^ 3 := by
  have hn : a ^ 3 ≠ b ^ 3 := fun hc =>
    h (Nat.pow_left_injective (by norm_num) hc)
  exact_mod_cast hn

theorem sum_sq_dev (l : List DataPoint) (μ : ℚ) :
    (l.map fun p => (((p.n : ℚ)) ^ 3 - μ) ^ 2).sum =
      fitSumN6 l - 2 * μ * fitSumN3 l + (l.length : ℚ) * μ ^ 2 := by
  induction l with
  | nil => simp [fitSumN6, fitSumN3]
  | cons p t ih =>
    simp only [List.map_cons, List.sum_cons, List.length_cons]
    rw [ih]
    unfold fitSumN6 fitSumN3
    simp only [List.map_cons, List.sum_cons]
    push_cast
    ring

theorem exists_cube_ne (l : List DataPoint)
    (hdist : ∃ p ∈ l, ∃ q ∈ l, p.n ≠ q.n) (μ : ℚ) :
    ∃ r ∈ l, ((r.n : ℚ)) ^ 3 ≠ μ := by
  obtain ⟨p, hp, q, hq, hpq⟩ := hdist
  by_cases h : ((p.n : ℚ)) ^ 3 = μ
  · refine ⟨q, hq, ?_⟩
    intro h2
    exact cube_cast_ne hpq (h.trans h2.symm)
  · exact ⟨p, hp, h⟩

theorem sum_sq_dev_pos (l : List DataPoint) (μ : ℚ)
    (h : ∃ r ∈ l, ((r.n : ℚ)) ^ 3 ≠ μ) :
    0 < (l.map fun p => (((p.n : ℚ)) ^ 3 - μ) ^ 2).sum := by
  obtain ⟨r, hr, hrμ⟩ := h
  have hterm : 0 < (((r.n : ℚ)) ^ 3 - μ) ^ 2 :=
    pow_two_pos_of_ne_zero (sub_ne_zero.mpr hrμ)
  have h0 : ∀ x ∈ l.map fun p => (((p.n : ℚ)) ^ 3 - μ) ^ 2, 0 ≤ x := by
    intro x hx
    obtain ⟨s, _, rfl⟩ := List.mem_map.mp hx
    positivity
  exact lt_of_lt_of_le hterm
    (List.single_le_sum h0 _ (List.mem_map_of_mem _ hr))

theorem fitDenominator_pos (l : List DataPoint) (hne : l ≠ [])
    (hdist : ∃ p ∈ l, ∃ q ∈ l, p.n ≠ q.n) : 0 < fitDenominator l := by
  have hlen : 0 < l.length := List.length_pos.mpr hne
  have hN0 : (0 : ℚ) < (l.length : ℚ) := by exact_mod_cast hlen
  have hkey : fitDenominator l = (l.length : ℚ) *
      (l.map fun p =>
        (((p.n : ℚ)) ^ 3 - fitSumN3 l / (l.length : ℚ)) ^ 2).sum := by
    rw [sum_sq_dev]
    unfold fitDenominator
    field_simp
    ring
  rw [hkey]
  exact mul_pos hN0
    (sum_sq_dev_pos l _ (exists_cube_ne l hdist _))

theorem fitSumT_eq (l : List DataPoint) (k : ℚ)
    (ht : ∀ p ∈ l, p.time = k * ((p.n : ℚ)) ^ 3) :
    fitSumT l = k * fitSumN3 l := by
  unfold fitSumT fitSumN3
  rw [List.map_congr_left ht, List.sum_map_mul_left]

theorem fitSumTN3_eq (l : List DataPoint) (k : ℚ)
    (ht : ∀ p ∈ l, p.time = k * ((p.n : ℚ)) ^ 3) :
    fitSumTN3 l = k * fitSumN6 l := by
  unfold fitSumTN3 fitSumN6
  have hcong : ∀ p ∈ l,
      p.time * ((p.n : ℚ)) ^ 3 = k * ((((p.n : ℚ)) ^ 3) ^ 2) := by
    intro p hp
    rw [ht p hp]
    ring
  rw [List.map_congr_left hcong, List.sum_map_mul_left]

theorem fitA_eq (l : List DataPoint) (k : ℚ)
    (ht : ∀ p ∈ l, p.time = k * ((p.n : ℚ)) ^ 3)
    (hd : fitDenominator l ≠ 0) : fitA l = k := by
  unfold fitA
  rw [if_neg hd, fitSumT_eq l k ht, fitSumTN3_eq l k ht]
  rw [div_eq_iff hd]
  unfold fitDenominator
  ring

theorem fitC_eq (l : List DataPoint) (k : ℚ)
    (ht : ∀ p ∈ l, p.time = k * ((p.n : ℚ)) ^ 3)
    (hd : fitDenominator l ≠ 0) : fitC l = 0 := by
  unfold fitC
  rw [fitA_eq l k ht hd, fitSumT_eq l k ht]
  ring

theorem fitSsRes_eq_zero (l : List DataPoint) (k : ℚ)
    (ht : ∀ p ∈ l, p.time = k * ((p.n : ℚ)) ^ 3)
    (hd : fitDenominator l ≠ 0) : fitSsRes l = 0 := by
  unfold fitSsRes
  have hcong : ∀ p ∈ l,
      (p.time - (fitA l * ((p.n : ℚ)) ^ 3 + 0 * ((p.n : ℚ)) ^ 2 + fitC l)) ^ 2 =
        (0 : ℚ) := by
    intro p hp
    rw [fitA_eq l k ht hd, fitC_eq l k ht hd, ht p hp]
    ring
  rw [List.map_congr_left hcong]
  simp

theorem fitSsTot_pos (l : List DataPoint) (k : ℚ) (hk : 0 < k)
    (ht : ∀ p ∈ l, p.time = k * ((p.n : ℚ)) ^ 3) (_hne : l ≠ [])
    (hdist : ∃ p ∈ l, ∃ q ∈ l, p.n ≠ q.n) : 0 < fitSsTot l := by
  unfold fitSsTot
  have hcong : ∀ p ∈ l,
      (p.time - fitSumT l / (l.length : ℚ)) ^ 2 =
        k ^ 2 *
          (((p.n : ℚ)) ^ 3 - fitSumN3 l / (l.length : ℚ)) ^ 2 := by
    intro p hp
    rw [ht p hp, fitSumT_eq l k ht]
    ring
  rw [List.map_congr_left hcong, List.sum_map_mul_left]
  exact mul_pos (pow_pos hk 2)
    (sum_sq_dev_pos l _ (exists_cube_ne l hdist _))

/-- C5: on any data set of at least 3 points with at least two distinct
`n` values whose times are exactly `k·n³` for some `k > 0`, `fitCubicCurve`
reports a perfect fit `rSquared = 1`; and on every input whatsoever the
returned `a` and `c` are non-negative, being absolute values. -/
theorem claim_C5_perfect_cubic_fit (l : List DataPoint) (k : ℚ) (hk : 0 < k)
    (hlen : 3 ≤ l.length)
    (ht : ∀ p ∈ l, p.time = k * ((p.n : ℚ)) ^ 3)
    (hdist : ∃ p ∈ l, ∃ q ∈ l, p.n ≠ q.n) :
    (fitCubicCurve l).rSquared = 1 ∧
    ∀ l2 : List DataPoint,
      0 ≤ (fitCubicCurve l2).a ∧ 0 ≤ (fitCubicCurve l2).c := by
  have hne : l ≠ [] := by
    intro h
    rw [h] at hlen
    simp at hlen
  have habs : ∀ l2 : List DataPoint,
      0 ≤ (fitCubicCurve l2).a ∧ 0 ≤ (fitCubicCurve l2).c := by
    intro l2
    unfold fitCubicCurve
    split_ifs <;> constructor <;> simp
  refine ⟨?_, habs⟩
  have h3 : ¬ l.length < 3 := by omega
  have hd : fitDenominator l ≠ 0 := (fitDenominator_pos l hne hdist).ne'
  unfold fitCubicCurve
  rw [if_neg h3]
  show fitRSquared l = 1
  unfold fitRSquared
  rw [if_pos (fitSsTot_pos l k hk ht hne hdist), fitSsRes_eq_zero l k ht hd]
  norm_num

/-- Witness for C5 on the concrete data set with times `1, 8, 27` at
`n = 1, 2, 3` (`k = 1`). -/
theorem claim_C5_witness :
    ((0 : ℚ) < 1 ∧ 3 ≤ cubicSample.length ∧
      (∀ p ∈ cubicSample, p.time = 1 * ((p.n : ℚ)) ^ 3) ∧
      (∃ p ∈ cubicSample, ∃ q ∈ cubicSample, p.n ≠ q.n)) ∧
    (fitCubicCurve cubicSample).rSquared = 1 := by
  have h1 : (0 : ℚ) < 1 := by norm_num
  have h2 : 3 ≤ cubicSample.length := by norm_num [cubicSample]
  have h3 : ∀ p ∈ cubicSample, p.time = 1 * ((p.n : ℚ)) ^ 3 := by
    intro p hp
    simp only [cubicSample, List.mem_cons, List.not_mem_nil, or_false] at hp
    rcases hp with rfl | rfl | rfl <;> norm_num
  have h4 : ∃ p ∈ cubicSample, ∃ q ∈ cubicSample, p.n ≠ q.n := by
    refine ⟨cubicSample.headI, ?_, cubicSample.getLastD default, ?_, ?_⟩ <;>
      simp [cubicSample]
  exact ⟨⟨h1, h2, h3, h4⟩,
    (claim_C5_perfect_cubic_fit cubicSample 1 h1 h2 h3 h4).1⟩

end MatrixAnalyzer
